import Mathlib

/-!
Shallow embedding of the token pricing / quoting engine of the ETH-trading MCP
server (src/implementations/{balance,price,swap,erc20}.rs), together with
theorems settling the frozen claims about it.

Modelling conventions:

* `U256` values are `Nat`; the uint crate used by ethers panics on arithmetic
  overflow (its `panic_on_overflow!` macro is unconditional, in release builds
  too), so overflowing `mul` / `pow` are modelled as `Option.none` ("panic").
* Ethereum addresses are modelled by their canonical textual rendering
  (lowercase 0x-prefixed hex), type `Address := String`; the registry keys on
  these values exactly as the Rust code keys on `H160` values.
* `rust_decimal::Decimal` values are modelled as exact rationals `ℚ`.  The
  28-digit precision cap and the 96-bit mantissa limit of `Decimal` are not
  modelled; the claims proved here depend only on the sign / zero-ness and on
  which source label and error branch is taken, which rounding preserves.
* External chain reads (oracle feeds, ERC-20 metadata, Uniswap quoter, gas
  estimation, `eth_call`) are supplied by explicit environment records; a
  failing read is an `Except.error` carrying the provider's message string.
* `HashMap` fields are modelled extensionally: the per-token feed map as an
  association list with first-match lookup (insert prepends), the registry
  indices as functions `key → Option TokenInfo` updated pointwise on insert.
-/

deriving instance DecidableEq for Except

/-- Ethereum addresses, modelled by their canonical rendered form. -/
abbrev Address := String

/-- Model of Rust `str::to_uppercase` (ASCII range; the symbols handled here
are ASCII): uppercase every character. -/
def str_to_uppercase (s : String) : String :=
  String.mk (s.data.map Char.toUpper)

/-- Quote currencies supported by the engine (types.rs, `QuoteCurrency`). -/
inductive QuoteCurrency where
  | USD
  | ETH
deriving DecidableEq, Repr

/-- Display rendering of a quote currency (types.rs, `impl fmt::Display`). -/
def QuoteCurrency.to_string : QuoteCurrency → String
  | .USD => "USD"
  | .ETH => "ETH"

/-- Error type of the application (error.rs, `AppError`); each constructor
carries the formatted message string. -/
inductive AppError where
  | Config (msg : String)
  | InvalidInput (msg : String)
  | Rpc (msg : String)
  | Price (msg : String)
  | Swap (msg : String)
  | Wallet (msg : String)
  | Io (msg : String)
  | Serialization (msg : String)
  | Internal (msg : String)
deriving DecidableEq, Repr

/-- Token metadata record (price.rs, `TokenInfo`).  The Chainlink feed map is
an association list with first-match lookup; `TokenInfo.with_feed` prepends,
which is extensionally the `HashMap::insert` overwrite. -/
structure TokenInfo where
  symbol : String
  address : Address
  decimals : Nat
  chainlink_feeds : List (QuoteCurrency × Address)
  default_fee : Nat
deriving DecidableEq, Repr

/-- First-match lookup in a feed association list (`HashMap::get`). -/
def feedsGet : List (QuoteCurrency × Address) → QuoteCurrency → Option Address
  | [], _ => none
  | (k, v) :: rest, q => if k = q then some v else feedsGet rest q

/-- Constructor `TokenInfo::new`: uppercases the symbol, starts with no
Chainlink feeds and the 3000 (0.3%) default fee tier. -/
def TokenInfo.new (symbol : String) (address : Address) (decimals : Nat) : TokenInfo :=
  { symbol := str_to_uppercase symbol
    address := address
    decimals := decimals
    chainlink_feeds := []
    default_fee := 3000 }

/-- Builder `TokenInfo::with_feed` (HashMap insert of a feed address). -/
def TokenInfo.with_feed (info : TokenInfo) (quote : QuoteCurrency) (feed_address : Address) :
    TokenInfo :=
  { info with chainlink_feeds := (quote, feed_address) :: info.chainlink_feeds }

/-- Builder `TokenInfo::with_fee`. -/
def TokenInfo.with_fee (info : TokenInfo) (fee : Nat) : TokenInfo :=
  { info with default_fee := fee }

/-- Token registry (price.rs, `TokenRegistry`): two extensional indices over
the inserted records. -/
structure TokenRegistry where
  by_symbol : String → Option TokenInfo
  by_address : Address → Option TokenInfo

/-- Constructor `TokenRegistry::new`: both indices empty. -/
def TokenRegistry.new : TokenRegistry :=
  { by_symbol := fun _ => none, by_address := fun _ => none }

/-- Method `TokenRegistry::add_token`: inserts the record into both indices. -/
def TokenRegistry.add_token (reg : TokenRegistry) (info : TokenInfo) : TokenRegistry :=
  { by_symbol := fun s => if s = info.symbol then some info else reg.by_symbol s
    by_address := fun a => if a = info.address then some info else reg.by_address a }

/-- Method `TokenRegistry::resolve_symbol` (uppercased exact match). -/
def TokenRegistry.resolve_symbol (reg : TokenRegistry) (symbol : String) : Option Address :=
  (reg.by_symbol (str_to_uppercase symbol)).map (fun info => info.address)

/-- Method `TokenRegistry::info_by_address`. -/
def TokenRegistry.info_by_address (reg : TokenRegistry) (address : Address) : Option TokenInfo :=
  reg.by_address address

/-- Method `TokenRegistry::info_by_symbol` (uppercased exact match). -/
def TokenRegistry.info_by_symbol (reg : TokenRegistry) (symbol : String) : Option TokenInfo :=
  reg.by_symbol (str_to_uppercase symbol)

/-- Method `TokenRegistry::quote_token`: USD maps to the USDC entry, ETH to
the WETH entry. -/
def TokenRegistry.quote_token (reg : TokenRegistry) (quote : QuoteCurrency) : Option TokenInfo :=
  match quote with
  | .USD => reg.info_by_symbol "USDC"
  | .ETH => reg.info_by_symbol "WETH"

/-- Inserting a whole list of records, left to right, starting from `reg`. -/
def TokenRegistry.add_tokens (reg : TokenRegistry) (l : List TokenInfo) : TokenRegistry :=
  l.foldl TokenRegistry.add_token reg

/-! ## 256-bit arithmetic model

The uint crate backing `ethers::types::U256` implements `Mul` with
`panic_on_overflow!`, which panics unconditionally (also in release builds),
and implements `pow` by exponentiation by squaring built on that panicking
multiplication.  A panic is modelled as `none`. -/

/-- Size bound of `U256`. -/
def U256_LIMIT : Nat := 2 ^ 256

/-- Panicking 256-bit multiplication (`impl Mul for U256`): the product, or
`none` for the overflow panic. -/
def u256CheckedMul (a b : Nat) : Option Nat :=
  if a * b < U256_LIMIT then some (a * b) else none

/-- Loop of `U256::pow` (uint crate, exponentiation by squaring): state
`(x, y, n)`, invariant `x ^ n * y`; every multiplication is the panicking one.
The fuel argument only drives structural recursion; `n` at least halves each
iteration, so any fuel above `n` is enough. -/
def u256PowLoop : Nat → Nat → Nat → Nat → Option Nat
  | 0, _, _, _ => none
  | fuel + 1, x, y, n =>
    if n ≤ 1 then
      u256CheckedMul x y
    else if n % 2 = 0 then
      match u256CheckedMul x x with
      | some x2 => u256PowLoop fuel x2 y (n / 2)
      | none => none
    else
      match u256CheckedMul x y with
      | none => none
      | some y2 =>
        match u256CheckedMul x x with
        | some x2 => u256PowLoop fuel x2 y2 ((n - 1) / 2)
        | none => none

/-- Model of `U256::pow self expon` (uint crate): exact power, or `none` for
the arithmetic-overflow panic. -/
def u256Pow (x n : Nat) : Option Nat :=
  if n = 0 then some 1 else u256PowLoop (n + 1) x 1 n

/-- Function `ten_pow` (price.rs) and the inline `ten.pow(decimals)` of
balance.rs: `10 ^ decimals` at 256-bit width. -/
def ten_pow (decimals : Nat) : Option Nat :=
  u256Pow 10 decimals

/-! ## Decimal digit strings -/

/-- Decimal digits of `n`, most significant first.  Fuel-driven structural
recursion (any fuel above `n` is enough); mirrors the standard decimal
rendering used by Rust's `Display` for integers. -/
def natDigitsAux : Nat → Nat → List Char
  | 0, _ => []
  | fuel + 1, n =>
    if n < 10 then [Nat.digitChar n]
    else natDigitsAux fuel (n / 10) ++ [Nat.digitChar (n % 10)]

/-- Decimal digit list of `n`, most significant first. -/
def natToDigits (n : Nat) : List Char :=
  natDigitsAux (n + 1) n

/-- Decimal string of `n` (Rust `ToString` on unsigned integers). -/
def natToString (n : Nat) : String :=
  String.mk (natToDigits n)

/-- Numeric value of a decimal digit character, `none` otherwise. -/
def digitVal (c : Char) : Option Nat :=
  if c.isDigit then some (c.toNat - Char.toNat '0') else none

/-- Left fold of decimal digits onto an accumulator; `none` on the first
non-digit character. -/
def parseDigitsFrom : Nat → List Char → Option Nat
  | a, [] => some a
  | a, c :: cs =>
    match digitVal c with
    | none => none
    | some d => parseDigitsFrom (a * 10 + d) cs

/-- Model of `U256::from_dec_str`: folds decimal digits (an empty string
yields 0), failing on any non-digit character or on overflow past 2^256. -/
def u256_from_dec_str (s : String) : Option Nat :=
  match parseDigitsFrom 0 s.data with
  | none => none
  | some v => if v < U256_LIMIT then some v else none

/-- Strip trailing zero characters (`str::trim_end_matches` with `0`). -/
def dropTrailingZeros (l : List Char) : List Char :=
  (l.reverse.dropWhile (fun c => c = '0')).reverse

/-- Zero-left-pad a digit list to the given width (no-op when already at
least that wide). -/
def padLeftZeros (l : List Char) (width : Nat) : List Char :=
  List.replicate (width - l.length) '0' ++ l

/-- Function `format_with_decimals` (balance.rs): formats a raw `U256` amount
as a decimal string with the given number of fractional decimals.  `none`
models the panic of `U256::pow` on an overflowing exponent; the
`power = 0` branch is kept from the source even though `pow` never returns
zero for base ten. -/
def format_with_decimals (raw : Nat) (decimals : Nat) : Option String :=
  if decimals = 0 then some (natToString raw)
  else
    match ten_pow decimals with
    | none => none
    | some power =>
      if power = 0 then some (natToString raw)
      else
        let integer := raw / power
        let fraction := raw % power
        if fraction = 0 then some (natToString integer)
        else
          let fraction_str := padLeftZeros (natToDigits fraction) decimals
          let trimmed := dropTrailingZeros fraction_str
          if trimmed = [] then some (natToString integer)
          else some (String.mk (natToDigits integer ++ '.' :: trimmed))

/-- Formalisation of the spec's description of the formatter (§4.1 sentence
quoted by the claim): split into `raw / 10 ^ decimals` and `raw % 10 ^
decimals`, pad the remainder to exactly `decimals` digits, strip trailing
zeros, and join with a dot when the stripped fraction is nonempty. -/
def spec_format (raw : Nat) (decimals : Nat) : String :=
  if decimals = 0 then natToString raw
  else
    let integer := raw / 10 ^ decimals
    let fraction := raw % 10 ^ decimals
    let frac := dropTrailingZeros (padLeftZeros (natToDigits fraction) decimals)
    if frac = [] then natToString integer
    else String.mk (natToDigits integer ++ '.' :: frac)

/-- Split a character list at the first dot: the part before it, and the part
after it when a dot occurs. -/
def splitOnDot : List Char → List Char × Option (List Char)
  | [] => ([], none)
  | c :: cs =>
    if c = '.' then ([], some cs)
    else
      let r := splitOnDot cs
      (c :: r.1, r.2)

/-- Formalisation of the round-trip parse the spec describes (§8): read the
output back as `integerPart * 10 ^ d + fractionPart` with the fraction
zero-padded back to `d` digits. -/
def parse_formatted (s : String) (d : Nat) : Option Nat :=
  match splitOnDot s.data with
  | (intPart, none) =>
    match parseDigitsFrom 0 intPart with
    | none => none
    | some integer => some (integer * 10 ^ d)
  | (intPart, some fracPart) =>
    match parseDigitsFrom 0 intPart,
      parseDigitsFrom 0 (fracPart ++ List.replicate (d - fracPart.length) '0') with
    | some integer, some fraction => some (integer * 10 ^ d + fraction)
    | _, _ => none

/-- Model of `Decimal::from_str_exact` on the formatter's output shape: exact
rational value of a decimal numeral `I` or `I.F`. -/
def decimal_from_str_exact (s : String) : Option ℚ :=
  match splitOnDot s.data with
  | (intPart, none) =>
    match parseDigitsFrom 0 intPart with
    | none => none
    | some integer => some (integer : ℚ)
  | (intPart, some fracPart) =>
    match parseDigitsFrom 0 intPart, parseDigitsFrom 0 fracPart with
    | some integer, some fraction =>
      some ((integer : ℚ) + (fraction : ℚ) / (10 : ℚ) ^ fracPart.length)
    | _, _ => none

/-! ## ERC-20 metadata and registry enrichment -/

/-- Metadata pair returned by `erc20::fetch_metadata`. -/
structure Erc20Metadata where
  symbol : String
  decimals : Nat
deriving DecidableEq, Repr

/-- Environment of ERC-20 contract reads: `decimals()` and `symbol()` view
calls for a token address; a provider failure is `Except.error msg`. -/
structure Erc20Env where
  decimalsOf : Address → Except String Nat
  symbolOf : Address → Except String String

/-- Function `erc20::fetch_metadata`: the decimals read failure is fatal
(an `Rpc` error); a symbol read failure falls back to the literal "ERC20". -/
def fetch_metadata (env : Erc20Env) (token : Address) : Except AppError Erc20Metadata :=
  match env.decimalsOf token with
  | .error err => .error (.Rpc ("failed to fetch ERC-20 decimals: " ++ err))
  | .ok decimals =>
    match env.symbolOf token with
    | .ok symbol => .ok { symbol := symbol, decimals := decimals }
    | .error _ => .ok { symbol := "ERC20", decimals := decimals }

/-- Method `TokenRegistry::ensure_token`: no-op when the address is already
indexed; otherwise fetches metadata (the empty-symbol case is renamed
"TOKEN_<address>") and inserts a fresh `TokenInfo::new` record.  Returns the
updated registry in place of the Rust in-place mutation. -/
def TokenRegistry.ensure_token (reg : TokenRegistry) (env : Erc20Env) (address : Address) :
    Except AppError TokenRegistry :=
  if (reg.by_address address).isSome then .ok reg
  else
    match fetch_metadata env address with
    | .error e => .error e
    | .ok metadata =>
      let symbol := if metadata.symbol = "" then "TOKEN_" ++ address else metadata.symbol
      .ok (reg.add_token (TokenInfo.new symbol address metadata.decimals))

/-! ## Price resolution -/

/-- Parameter record of the Uniswap V3 `quoteExactInputSingle` call. -/
structure UniswapQuoteParams where
  token_in : Address
  token_out : Address
  amount_in : Nat
  fee : Nat
  sqrt_price_limit_x96 : Nat
deriving DecidableEq, Repr

/-- Environment of the external reads issued by price resolution: Chainlink
aggregator `decimals()` / `latestRoundData()` (the int256 answer component),
and the Uniswap quoter. -/
structure PriceEnv where
  feedDecimals : Address → Except String Nat
  feedAnswer : Address → Except String Int
  uniswapQuote : UniswapQuoteParams → Except String (Nat × Nat × Nat × Nat)

/-- Result record of a price lookup (types.rs, `PriceOut`).  The price is the
exact rational the Decimal value denotes; the `decimals` field (the Decimal's
scale, a representation artefact) is not modelled. -/
structure PriceOut where
  base : String
  quote : String
  price : ℚ
  source : String
deriving DecidableEq, Repr

/-- Function `fetch_chainlink_price` (price.rs): reads the feed's decimals
and latest round, converts the int256 answer through `i128::from_str`
(failing outside the i128 range), rejects non-positive answers, and scales
by `10 ^ decimals`. -/
def fetch_chainlink_price (env : PriceEnv) (feed_address : Address) : Except AppError ℚ :=
  match env.feedDecimals feed_address with
  | .error err => .error (.Price ("failed to read feed decimals: " ++ err))
  | .ok decimals =>
    match env.feedAnswer feed_address with
    | .error err => .error (.Price ("failed to read latest round: " ++ err))
    | .ok answer =>
      if answer < -(2 ^ 127) ∨ 2 ^ 127 ≤ answer then
        .error (.Price "invalid Chainlink answer: number too large to fit in target type")
      else if answer ≤ 0 then
        .error (.Price "Chainlink returned non-positive price")
      else
        .ok ((answer : ℚ) / (10 : ℚ) ^ decimals)

/-- Mainnet router constant (price.rs), in its `{:#x}` rendering. -/
def UNISWAP_SWAP_ROUTER : Address := "0xe592427a0aece92de3edee1f18e0157c05861564"

/-- Function `fetch_uniswap_price` (price.rs): quotes one whole base unit
(`10 ^ base.decimals`, whose `pow` may panic: `none`) into the quote token at
the base token's default fee, rejects a zero output, formats the raw output
with the quote token's decimals and re-parses it exactly. -/
def fetch_uniswap_price (env : PriceEnv) (base : TokenInfo) (quote : TokenInfo) :
    Option (Except AppError ℚ) :=
  match ten_pow base.decimals with
  | none => none
  | some amount_in =>
    match env.uniswapQuote
        { token_in := base.address
          token_out := quote.address
          amount_in := amount_in
          fee := base.default_fee
          sqrt_price_limit_x96 := 0 } with
    | .error err => some (.error (.Price ("uniswap quote failed: " ++ err)))
    | .ok (amount_out, _, _, _) =>
      if amount_out = 0 then some (.error (.Price "uniswap returned zero amount out"))
      else
        match format_with_decimals amount_out quote.decimals with
        | none => none
        | some formatted =>
          match decimal_from_str_exact formatted with
          | none => some (.error (.Price "failed to parse uniswap result: invalid decimal"))
          | some d => some (.ok d)

/-- Second resolution step of `resolve_token_price`: the Chainlink pivot via
USD, attempted for an ETH quote.  `none` is the silent fall-through of the
source's nested `if let` chain (no base USD feed, no WETH record, or no WETH
USD feed); `some` is an early return. -/
def pivot_via_usd (env : PriceEnv) (reg : TokenRegistry) (base_info : TokenInfo) :
    Option (Except AppError PriceOut) :=
  match feedsGet base_info.chainlink_feeds QuoteCurrency.USD with
  | none => none
  | some base_usd_feed =>
    match reg.info_by_symbol "WETH" with
    | none => none
    | some eth_info =>
      match feedsGet eth_info.chainlink_feeds QuoteCurrency.USD with
      | none => none
      | some eth_usd_feed =>
        some (match fetch_chainlink_price env base_usd_feed with
          | .error e => .error e
          | .ok base_usd =>
            match fetch_chainlink_price env eth_usd_feed with
            | .error e => .error e
            | .ok eth_usd =>
              if eth_usd = 0 then
                .error (.Price "received zero ETH/USD price from Chainlink")
              else
                .ok { base := base_info.symbol
                      quote := QuoteCurrency.ETH.to_string
                      price := base_usd / eth_usd
                      source := "chainlink (via USD)" })

/-- Third resolution step of `resolve_token_price`: the Chainlink pivot via
ETH, attempted for a USD quote; same fall-through discipline. -/
def pivot_via_eth (env : PriceEnv) (reg : TokenRegistry) (base_info : TokenInfo) :
    Option (Except AppError PriceOut) :=
  match feedsGet base_info.chainlink_feeds QuoteCurrency.ETH with
  | none => none
  | some base_eth_feed =>
    match reg.info_by_symbol "WETH" with
    | none => none
    | some eth_info =>
      match feedsGet eth_info.chainlink_feeds QuoteCurrency.USD with
      | none => none
      | some eth_usd_feed =>
        some (match fetch_chainlink_price env base_eth_feed with
          | .error e => .error e
          | .ok base_eth =>
            match fetch_chainlink_price env eth_usd_feed with
            | .error e => .error e
            | .ok eth_usd =>
              .ok { base := base_info.symbol
                    quote := QuoteCurrency.USD.to_string
                    price := base_eth * eth_usd
                    source := "chainlink (via ETH)" })

/-- Final resolution step of `resolve_token_price`: the Uniswap fallback.
Outer `none` models a panic inside `fetch_uniswap_price`. -/
def uniswap_fallback (env : PriceEnv) (reg : TokenRegistry) (base_info : TokenInfo)
    (quote : QuoteCurrency) : Option (Except AppError PriceOut) :=
  match reg.quote_token quote with
  | none => some (.error (.Price "missing quote token configuration"))
  | some quote_info =>
    match fetch_uniswap_price env base_info quote_info with
    | none => none
    | some (.error e) => some (.error e)
    | some (.ok decimal_price) =>
      some (.ok { base := base_info.symbol
                  quote := quote.to_string
                  price := decimal_price
                  source := "uniswap_v3 (fee " ++ natToString base_info.default_fee ++ ")" })

/-- Function `resolve_token_price` (price.rs): unknown base address is an
`InvalidInput` error; then direct Chainlink feed, USD pivot (for ETH quotes),
ETH pivot (for USD quotes), and the Uniswap fallback, in that order.  The
outer `Option` is `none` exactly when the modelled Rust code panics. -/
def resolve_token_price (env : PriceEnv) (reg : TokenRegistry) (base : Address)
    (quote : QuoteCurrency) : Option (Except AppError PriceOut) :=
  match reg.info_by_address base with
  | none => some (.error (.InvalidInput ("unsupported token: " ++ base)))
  | some base_info =>
    match feedsGet base_info.chainlink_feeds quote with
    | some feed_addr =>
      some (match fetch_chainlink_price env feed_addr with
        | .error e => .error e
        | .ok price =>
          .ok { base := base_info.symbol
                quote := quote.to_string
                price := price
                source := "chainlink" })
    | none =>
      match (if quote = QuoteCurrency.ETH then pivot_via_usd env reg base_info else none) with
      | some r => some r
      | none =>
        match (if quote = QuoteCurrency.USD then pivot_via_eth env reg base_info else none) with
        | some r => some r
        | none => uniswap_fallback env reg base_info quote

/-! ## Swap simulation -/

/-- Parameter record of the swap tool (types.rs, `SwapTokensParams`). -/
structure SwapTokensParams where
  from_token : String
  to_token : String
  amount_in_wei : String
  slippage_bps : Nat
  fee : Nat
  recipient : Option String
  sqrt_price_limit : Option String
deriving DecidableEq, Repr

/-- Parameter record of the router's `exactInputSingle` call; the ABI-encoded
calldata is modelled by the record it encodes. -/
structure ExactInputSingleParams where
  token_in : Address
  token_out : Address
  fee : Nat
  recipient : Address
  deadline : Nat
  amount_in : Nat
  amount_out_minimum : Nat
  sqrt_price_limit_x96 : Nat
deriving DecidableEq, Repr

/-- Result record of a swap simulation (types.rs, `SwapSimOut`); the hex
calldata string is modelled by the parameter record it encodes. -/
structure SwapSimOut where
  amount_out_estimate : String
  gas_estimate : String
  calldata : ExactInputSingleParams
  router : Address
  amount_out_min : String
deriving DecidableEq, Repr

/-- External reads a swap simulation can issue, in issue order. -/
inductive ExternalRead where
  | erc20Decimals (token : Address)
  | erc20Symbol (token : Address)
  | quoteExactInputSingle (params : UniswapQuoteParams)
  | estimateGas (call : ExactInputSingleParams)
  | ethCall (call : ExactInputSingleParams)
deriving DecidableEq, Repr

/-- Environment of the external reads issued by `simulate_swap`, plus the
wall-clock second used for the deadline. -/
structure SwapEnv where
  decimalsOf : Address → Except String Nat
  symbolOf : Address → Except String String
  uniswapQuote : UniswapQuoteParams → Except String (Nat × Nat × Nat × Nat)
  gasEstimate : ExactInputSingleParams → Except String Nat
  ethCall : ExactInputSingleParams → Except String Unit
  now : Nat

/-- Helper `parse_amount` (swap.rs): `U256::from_dec_str` mapped onto an
`InvalidInput` error. -/
def parse_amount (raw : String) : Except AppError Nat :=
  match u256_from_dec_str raw with
  | some v => .ok v
  | none => .error (.InvalidInput ("invalid numeric value: " ++ raw))

/-- Helper `apply_slippage` (swap.rs): `amount * (10000 - slippage_bps) /
10000` in 256-bit arithmetic.  The Rust function always returns `Ok`; its
only failure mode is the multiplication-overflow panic, modelled as `none`.
Callers reject `slippage_bps > 10000` beforehand (the u32 subtraction would
otherwise underflow). -/
def apply_slippage (amount : Nat) (slippage_bps : Nat) : Option Nat :=
  match u256CheckedMul amount (10000 - slippage_bps) with
  | none => none
  | some numerator => some (numerator / 10000)

/-- Model of `Address::from_str` on a recipient override: 40 hex digits with
an optional 0x prefix, normalised to the canonical lowercase rendering. -/
def address_from_str (s : String) : Option Address :=
  let t := if s.startsWith "0x" then s.drop 2 else s
  if t.length = 40 ∧ t.data.all (fun c =>
      c.isDigit ∨ ('a' ≤ c ∧ c ≤ 'f') ∨ ('A' ≤ c ∧ c ≤ 'F')) then
    some ("0x" ++ t.toLower)
  else none

/-- Function `simulate_swap` (swap.rs).  Returns the outcome together with
the list of external reads issued, in order; the outer `Option` is `none`
exactly when the modelled Rust code panics.  The metadata fetch on the
destination token inlines `erc20::fetch_metadata` (decimals read, then
symbol read whose failure is tolerated). -/
def simulate_swap (env : SwapEnv) (signer_address : Address) (from_token : Address)
    (to_token : Address) (params : SwapTokensParams) :
    Option (Except AppError SwapSimOut) × List ExternalRead :=
  if params.slippage_bps > 10000 then
    (some (.error (.Swap "slippage cannot exceed 100% (10_000 bps)")), [])
  else
    match parse_amount params.amount_in_wei with
    | .error e => (some (.error e), [])
    | .ok amount_in =>
      if amount_in = 0 then
        (some (.error (.Swap "amount_in_wei must be greater than zero")), [])
      else
        match env.decimalsOf to_token with
        | .error err =>
          (some (.error (.Rpc ("failed to fetch ERC-20 decimals: " ++ err))),
            [.erc20Decimals to_token])
        | .ok to_decimals =>
          -- the symbol read of fetch_metadata is issued here; its result is
          -- only used for the metadata record, not by simulate_swap
          let trace₁ : List ExternalRead := [.erc20Decimals to_token, .erc20Symbol to_token]
          let sqrt_parsed : Except AppError Nat :=
            match params.sqrt_price_limit with
            | none => .ok 0
            | some s => parse_amount s
          match sqrt_parsed with
          | .error e => (some (.error e), trace₁)
          | .ok sqrt_price_limit_value =>
            let quote_params : UniswapQuoteParams :=
              { token_in := from_token
                token_out := to_token
                amount_in := amount_in
                fee := params.fee
                sqrt_price_limit_x96 := sqrt_price_limit_value }
            let trace₂ := trace₁ ++ [.quoteExactInputSingle quote_params]
            match env.uniswapQuote quote_params with
            | .error err =>
              (some (.error (.Swap ("uniswap quoter call failed: " ++ err))), trace₂)
            | .ok (amount_out, _, _, _) =>
              if amount_out = 0 then
                (some (.error (.Swap "quote returned zero output amount")), trace₂)
              else
                match apply_slippage amount_out params.slippage_bps with
                | none => (none, trace₂)
                | some amount_out_min =>
                  let deadline := env.now + 900
                  let recipient :=
                    match params.recipient with
                    | some v =>
                      match address_from_str v with
                      | some a => a
                      | none => signer_address
                    | none => signer_address
                  let call_params : ExactInputSingleParams :=
                    { token_in := from_token
                      token_out := to_token
                      fee := params.fee
                      recipient := recipient
                      deadline := deadline
                      amount_in := amount_in
                      amount_out_minimum := amount_out_min
                      sqrt_price_limit_x96 := sqrt_price_limit_value }
                  let trace₃ := trace₂ ++ [.estimateGas call_params]
                  match env.gasEstimate call_params with
                  | .error err =>
                    (some (.error (.Swap ("gas estimation failed: " ++ err))), trace₃)
                  | .ok gas_estimate =>
                    let trace₄ := trace₃ ++ [.ethCall call_params]
                    match env.ethCall call_params with
                    | .error err =>
                      (some (.error (.Swap ("eth_call simulation failed: " ++ err))), trace₄)
                    | .ok _ =>
                      match format_with_decimals amount_out to_decimals,
                        format_with_decimals amount_out_min to_decimals with
                      | some amount_out_decimal, some amount_out_min_decimal =>
                        (some (.ok
                          { amount_out_estimate := amount_out_decimal
                            gas_estimate := natToString gas_estimate
                            calldata := call_params
                            router := UNISWAP_SWAP_ROUTER
                            amount_out_min := amount_out_min_decimal }), trace₄)
                      | _, _ => (none, trace₄)

/-! ## Concrete fixtures used to instantiate the theorems -/

/-- Chainlink feed address of the sample base token's USD feed. -/
def tknUsdFeed : Address := "0xf1"

/-- Chainlink feed address of the sample WETH/USD feed. -/
def wethUsdFeed : Address := "0xf2"

/-- Address of the sample base token. -/
def tknAddr : Address := "0x01"

/-- Address of the sample wrapped-native token. -/
def wethAddr : Address := "0x02"

/-- Sample base token carrying only a USD feed. -/
def tknInfoUsd : TokenInfo :=
  (TokenInfo.new "TKN" tknAddr 18).with_feed .USD tknUsdFeed

/-- Sample WETH record carrying a USD feed. -/
def wethInfoUsd : TokenInfo :=
  (TokenInfo.new "WETH" wethAddr 18).with_feed .USD wethUsdFeed

/-- Sample WETH record with no feeds at all. -/
def wethInfoBare : TokenInfo := TokenInfo.new "WETH" wethAddr 18

/-- Registry with just the sample base token. -/
def regNoWeth : TokenRegistry := TokenRegistry.new.add_token tknInfoUsd

/-- Registry with the sample base token and a WETH record with a USD feed. -/
def regViaUsd : TokenRegistry :=
  (TokenRegistry.new.add_token tknInfoUsd).add_token wethInfoUsd

/-- Registry with the sample base token and a feed-less WETH record. -/
def regWethNoFeed : TokenRegistry :=
  (TokenRegistry.new.add_token tknInfoUsd).add_token wethInfoBare

/-- Price environment: the sample base feed answers 3, the WETH feed 2 (both
at scale 0), and the Uniswap quote of one whole base unit into WETH returns
half a WETH. -/
def priceEnvA : PriceEnv :=
  { feedDecimals := fun _ => .ok 0
    feedAnswer := fun a =>
      if a = tknUsdFeed then .ok 3
      else if a = wethUsdFeed then .ok 2
      else .error "unknown feed"
    uniswapQuote := fun p =>
      if p = { token_in := tknAddr
               token_out := wethAddr
               amount_in := 10 ^ 18
               fee := 3000
               sqrt_price_limit_x96 := 0 } then
        .ok (5 * 10 ^ 17, 0, 0, 0)
      else .error "no pool" }

/-- Sample record with symbol "FOO" at one address. -/
def fooA : TokenInfo := TokenInfo.new "FOO" "0x0a" 18

/-- Sample record with the same symbol "FOO" at a different address. -/
def fooB : TokenInfo := TokenInfo.new "FOO" "0x0b" 18

/-- ERC-20 read environment where both reads succeed. -/
def erc20EnvOk : Erc20Env :=
  { decimalsOf := fun _ => .ok 6, symbolOf := fun _ => .ok "usdt" }

/-- ERC-20 read environment where only the symbol read fails. -/
def erc20EnvNoSym : Erc20Env :=
  { decimalsOf := fun _ => .ok 6, symbolOf := fun _ => .error "execution reverted" }

/-- ERC-20 read environment where the decimals read fails. -/
def erc20EnvNoDec : Erc20Env :=
  { decimalsOf := fun _ => .error "connection refused", symbolOf := fun _ => .ok "X" }

/-- Swap environment whose later reads are never consulted by the validation
theorems. -/
def swapEnvStub : SwapEnv :=
  { decimalsOf := fun _ => .ok 18
    symbolOf := fun _ => .ok "TKN"
    uniswapQuote := fun _ => .error "unused"
    gasEstimate := fun _ => .error "unused"
    ethCall := fun _ => .error "unused"
    now := 0 }

/-- Swap parameters with an over-100% slippage tolerance. -/
def paramsBadSlippage : SwapTokensParams :=
  { from_token := tknAddr
    to_token := wethAddr
    amount_in_wei := "100"
    slippage_bps := 10001
    fee := 3000
    recipient := none
    sqrt_price_limit := none }

/-- Swap parameters with a non-numeric input amount. -/
def paramsBadAmount : SwapTokensParams :=
  { paramsBadSlippage with amount_in_wei := "12x", slippage_bps := 100 }

/-- Swap parameters with a zero input amount. -/
def paramsZeroAmount : SwapTokensParams :=
  { paramsBadSlippage with amount_in_wei := "0", slippage_bps := 100 }

/-! ## Lemmas: 256-bit arithmetic -/

theorem u256CheckedMul_some {a b r : Nat} (h : u256CheckedMul a b = some r) :
    r = a * b ∧ r < U256_LIMIT := by
  unfold u256CheckedMul at h
  by_cases hlt : a * b < U256_LIMIT
  · rw [if_pos hlt] at h
    cases h
    exact ⟨rfl, hlt⟩
  · rw [if_neg hlt] at h
    cases h

theorem u256CheckedMul_of_lt {a b : Nat} (h : a * b < U256_LIMIT) :
    u256CheckedMul a b = some (a * b) := by
  unfold u256CheckedMul
  simp [h]

theorem u256PowLoop_complete :
    ∀ (fuel n x y : Nat), 1 ≤ n → n < fuel → 1 ≤ x → 1 ≤ y →
      x ^ n * y < U256_LIMIT → u256PowLoop fuel x y n = some (x ^ n * y) := by
  intro fuel
  induction fuel with
  | zero => intro n x y _ h; omega
  | succ fuel ih =>
    intro n x y hn hfuel hx hy hbound
    unfold u256PowLoop
    by_cases h1 : n ≤ 1
    · have hn1 : n = 1 := by omega
      subst hn1
      simp only [if_pos (by omega : (1 : Nat) ≤ 1)]
      rw [pow_one] at hbound ⊢
      exact u256CheckedMul_of_lt hbound
    · simp only [if_neg h1]
      have hxx_le : x * x ≤ x ^ n * y := by
        calc x * x = x ^ 2 := (sq x).symm
        _ ≤ x ^ n := Nat.pow_le_pow_right hx (by omega)
        _ = x ^ n * 1 := (Nat.mul_one _).symm
        _ ≤ x ^ n * y := Nat.mul_le_mul_left _ hy
      have hxx : u256CheckedMul x x = some (x * x) :=
        u256CheckedMul_of_lt (lt_of_le_of_lt hxx_le hbound)
      by_cases heven : n % 2 = 0
      · simp only [if_pos heven, hxx]
        have hpow : (x * x) ^ (n / 2) = x ^ n := by
          rw [← sq, ← pow_mul, Nat.mul_div_cancel' (Nat.dvd_of_mod_eq_zero heven)]
        rw [ih (n / 2) (x * x) y (by omega) (by omega)
          (Nat.one_le_iff_ne_zero.mpr (by positivity)) hy (by rw [hpow]; exact hbound), hpow]
      · simp only [if_neg heven]
        have hxy_le : x * y ≤ x ^ n * y := by
          have : x ≤ x ^ n := by
            calc x = x ^ 1 := (pow_one x).symm
            _ ≤ x ^ n := Nat.pow_le_pow_right hx hn
          exact Nat.mul_le_mul_right _ this
        have hxy : u256CheckedMul x y = some (x * y) :=
          u256CheckedMul_of_lt (lt_of_le_of_lt hxy_le hbound)
        simp only [hxy, hxx]
        have hpow : (x * x) ^ ((n - 1) / 2) * (x * y) = x ^ n * y := by
          rw [← sq, ← pow_mul, Nat.mul_div_cancel' (Nat.dvd_of_mod_eq_zero (by omega))]
          have : x ^ (n - 1) * (x * y) = x ^ (n - 1) * x * y := by ring
          rw [this, ← pow_succ]
          congr 2
          omega
        rw [ih ((n - 1) / 2) (x * x) (x * y) (by omega) (by omega)
          (Nat.one_le_iff_ne_zero.mpr (by positivity))
          (Nat.one_le_iff_ne_zero.mpr (by positivity)) (by rw [hpow]; exact hbound), hpow]

theorem u256PowLoop_sound :
    ∀ (fuel n x y r : Nat), 1 ≤ n → u256PowLoop fuel x y n = some r →
      r = x ^ n * y := by
  intro fuel
  induction fuel with
  | zero => intro n x y r _ h; exact absurd h (by simp [u256PowLoop])
  | succ fuel ih =>
    intro n x y r hn h
    unfold u256PowLoop at h
    by_cases h1 : n ≤ 1
    · have hn1 : n = 1 := by omega
      subst hn1
      simp only [if_pos (by omega : (1 : Nat) ≤ 1)] at h
      rw [pow_one]
      exact (u256CheckedMul_some h).1
    · simp only [if_neg h1] at h
      by_cases heven : n % 2 = 0
      · simp only [if_pos heven] at h
        rcases hxx : u256CheckedMul x x with _ | x2
        · rw [hxx] at h; exact absurd h (by simp)
        · rw [hxx] at h
          have hx2 : x2 = x * x := (u256CheckedMul_some hxx).1
          have := ih (n / 2) x2 y r (by omega) h
          rw [this, hx2, ← sq, ← pow_mul, Nat.mul_div_cancel' (Nat.dvd_of_mod_eq_zero heven)]
      · simp only [if_neg heven] at h
        rcases hxy : u256CheckedMul x y with _ | y2
        · rw [hxy] at h; exact absurd h (by simp)
        · rw [hxy] at h
          rcases hxx : u256CheckedMul x x with _ | x2
          · rw [hxx] at h; exact absurd h (by simp)
          · rw [hxx] at h
            have hy2 : y2 = x * y := (u256CheckedMul_some hxy).1
            have hx2 : x2 = x * x := (u256CheckedMul_some hxx).1
            have := ih ((n - 1) / 2) x2 y2 r (by omega) h
            rw [this, hx2, hy2, ← sq, ← pow_mul,
              Nat.mul_div_cancel' (Nat.dvd_of_mod_eq_zero (by omega : (n - 1) % 2 = 0))]
            have : x ^ (n - 1) * (x * y) = x ^ (n - 1) * x * y := by ring
            rw [this, ← pow_succ]
            congr 2
            omega

theorem ten_pow_eq_of_le {d : Nat} (h : d ≤ 77) : ten_pow d = some (10 ^ d) := by
  rcases Nat.eq_zero_or_pos d with hd | hd
  · subst hd; rfl
  · unfold ten_pow u256Pow
    rw [if_neg (by omega)]
    have hbound : (10 : Nat) ^ d * 1 < U256_LIMIT := by
      rw [Nat.mul_one]
      calc (10 : Nat) ^ d ≤ 10 ^ 77 := Nat.pow_le_pow_right (by omega) h
      _ < U256_LIMIT := by unfold U256_LIMIT; norm_num
    rw [u256PowLoop_complete (d + 1) d 10 1 hd (by omega) (by omega) (by omega) hbound,
      Nat.mul_one]

theorem ten_pow_pos {d p : Nat} (h : ten_pow d = some p) : 0 < p := by
  unfold ten_pow u256Pow at h
  by_cases hd : d = 0
  · rw [if_pos hd] at h
    cases h
    decide
  · rw [if_neg hd] at h
    have := u256PowLoop_sound (d + 1) d 10 1 p (by omega) h
    rw [this, Nat.mul_one]
    positivity

/-! ## Lemmas: decimal digit strings -/

theorem digitVal_digitChar {d : Nat} (h : d < 10) : digitVal (Nat.digitChar d) = some d := by
  interval_cases d <;> rfl

theorem parseDigitsFrom_append (a : Nat) (l₁ l₂ : List Char) :
    parseDigitsFrom a (l₁ ++ l₂) =
      match parseDigitsFrom a l₁ with
      | some b => parseDigitsFrom b l₂
      | none => none := by
  induction l₁ generalizing a with
  | nil => rfl
  | cons c cs ih =>
    simp only [List.cons_append, parseDigitsFrom]
    rcases digitVal c with _ | d <;> simp [ih]

theorem parseDigitsFrom_replicate_zero (a k : Nat) :
    parseDigitsFrom a (List.replicate k '0') = some (a * 10 ^ k) := by
  induction k generalizing a with
  | zero => simp [parseDigitsFrom]
  | succ k ih =>
    rw [List.replicate_succ]
    show parseDigitsFrom (a * 10 + 0) (List.replicate k '0') = some (a * 10 ^ (k + 1))
    rw [ih (a * 10 + 0)]
    congr 1
    ring

theorem natDigitsAux_parse :
    ∀ (fuel n a : Nat), n < fuel →
      parseDigitsFrom a (natDigitsAux fuel n) =
        some (a * 10 ^ (natDigitsAux fuel n).length + n) := by
  intro fuel
  induction fuel with
  | zero => intro n a h; omega
  | succ fuel ih =>
    intro n a h
    by_cases h10 : n < 10
    · have hdig : natDigitsAux (fuel + 1) n = [Nat.digitChar n] := by
        simp [natDigitsAux, if_pos h10]
      rw [hdig]
      simp only [parseDigitsFrom, digitVal_digitChar h10, List.length_singleton]
      norm_num
    · have hdig : natDigitsAux (fuel + 1) n =
          natDigitsAux fuel (n / 10) ++ [Nat.digitChar (n % 10)] := by
        simp [natDigitsAux, if_neg h10]
      rw [hdig]
      rw [parseDigitsFrom_append]
      have hrec : n / 10 < fuel := by omega
      rw [ih (n / 10) a hrec]
      simp only [parseDigitsFrom, digitVal_digitChar (Nat.mod_lt n (by omega) : n % 10 < 10),
        List.length_append, List.length_singleton]
      congr 1
      have h1 : a * 10 ^ ((natDigitsAux fuel (n / 10)).length + 1) =
          a * 10 ^ (natDigitsAux fuel (n / 10)).length * 10 := by ring
      have h2 : 10 * (n / 10) + n % 10 = n := Nat.div_add_mod n 10
      omega

theorem parse_natToDigits (n : Nat) : parseDigitsFrom 0 (natToDigits n) = some n := by
  unfold natToDigits
  rw [natDigitsAux_parse (n + 1) n 0 (by omega)]
  simp

theorem digitChar_isDigit {d : Nat} (h : d < 10) : (Nat.digitChar d).isDigit = true := by
  interval_cases d <;> rfl

theorem natDigitsAux_all_digits :
    ∀ (fuel n : Nat), n < fuel → ∀ c ∈ natDigitsAux fuel n, c.isDigit = true := by
  intro fuel
  induction fuel with
  | zero => intro n h; omega
  | succ fuel ih =>
    intro n h c hc
    by_cases h10 : n < 10
    · simp only [natDigitsAux, if_pos h10, List.mem_singleton] at hc
      subst hc
      exact digitChar_isDigit h10
    · simp only [natDigitsAux, if_neg h10, List.mem_append, List.mem_singleton] at hc
      rcases hc with hc | hc
      · exact ih (n / 10) (by omega) c hc
      · subst hc
        exact digitChar_isDigit (Nat.mod_lt n (by omega))

theorem natToDigits_all_digits (n : Nat) : ∀ c ∈ natToDigits n, c.isDigit = true :=
  natDigitsAux_all_digits (n + 1) n (by omega)

theorem isDigit_ne_dot {c : Char} (h : c.isDigit = true) : c ≠ '.' := by
  intro hc
  subst hc
  exact absurd h (by decide)

theorem natDigitsAux_length_le :
    ∀ (fuel n d : Nat), n < fuel → n < 10 ^ d → 0 < d →
      (natDigitsAux fuel n).length ≤ d := by
  intro fuel
  induction fuel with
  | zero => intro n d h; omega
  | succ fuel ih =>
    intro n d h hn hd
    by_cases h10 : n < 10
    · simp only [natDigitsAux, if_pos h10, List.length_singleton]
      omega
    · simp only [natDigitsAux, if_neg h10, List.length_append, List.length_singleton]
      have hd2 : 2 ≤ d := by
        by_contra hcon
        have : d = 1 := by omega
        subst this
        simp at hn
        omega
      have hdiv : n / 10 < 10 ^ (d - 1) := by
        rw [Nat.div_lt_iff_lt_mul (by omega : (0 : Nat) < 10)]
        calc n < 10 ^ d := hn
        _ = 10 ^ (d - 1) * 10 := by
            rw [← pow_succ]
            congr 1
            omega
      have := ih (n / 10) (d - 1) (by omega) hdiv (by omega)
      omega

theorem natToDigits_length_le {n d : Nat} (hn : n < 10 ^ d) (hd : 0 < d) :
    (natToDigits n).length ≤ d :=
  natDigitsAux_length_le (n + 1) n d (by omega) hn hd

/-! ## Lemmas: padding and trailing-zero stripping -/

theorem padLeftZeros_length {l : List Char} {w : Nat} (h : l.length ≤ w) :
    (padLeftZeros l w).length = w := by
  simp only [padLeftZeros, List.length_append, List.length_replicate]
  omega

theorem length_dropWhile_le (p : Char → Bool) (l : List Char) :
    (l.dropWhile p).length ≤ l.length := by
  induction l with
  | nil => simp
  | cons c cs ih =>
    rw [List.dropWhile_cons]
    split
    · simp only [List.length_cons]
      omega
    · simp

theorem dropTrailingZeros_length_le (l : List Char) :
    (dropTrailingZeros l).length ≤ l.length := by
  simp only [dropTrailingZeros, List.length_reverse]
  calc (l.reverse.dropWhile fun c => c = '0').length ≤ l.reverse.length :=
        length_dropWhile_le _ _
  _ = l.length := List.length_reverse l

theorem dropTrailingZeros_restore (l : List Char) :
    dropTrailingZeros l ++ List.replicate (l.length - (dropTrailingZeros l).length) '0' = l := by
  have hsplit := List.takeWhile_append_dropWhile (p := fun c => decide (c = '0')) (l := l.reverse)
  have htake : ∀ c ∈ l.reverse.takeWhile (fun c => decide (c = '0')), c = '0' := by
    intro b hb
    simpa using List.mem_takeWhile_imp hb
  have htrev := List.eq_replicate_of_mem
    (l := (l.reverse.takeWhile (fun c => decide (c = '0'))).reverse) (a := '0')
    (fun b hb => htake b (List.mem_reverse.mp hb))
  have hlen : (l.reverse.takeWhile (fun c => decide (c = '0'))).length +
      (l.reverse.dropWhile (fun c => decide (c = '0'))).length = l.length := by
    have := congrArg List.length hsplit
    rw [List.length_append, List.length_reverse] at this
    exact this
  have hdlen : (dropTrailingZeros l).length =
      (l.reverse.dropWhile (fun c => decide (c = '0'))).length := by
    simp [dropTrailingZeros]
  rw [hdlen]
  have hk : l.length - (l.reverse.dropWhile (fun c => decide (c = '0'))).length =
      (l.reverse.takeWhile (fun c => decide (c = '0'))).length := by omega
  rw [hk]
  calc dropTrailingZeros l ++
        List.replicate (l.reverse.takeWhile (fun c => decide (c = '0'))).length '0'
      = (l.reverse.dropWhile (fun c => decide (c = '0'))).reverse ++
        (l.reverse.takeWhile (fun c => decide (c = '0'))).reverse := by
        rw [show dropTrailingZeros l =
          (l.reverse.dropWhile (fun c => decide (c = '0'))).reverse from rfl]
        congr 1
        rw [htrev, List.length_reverse]
  _ = (l.reverse.takeWhile (fun c => decide (c = '0')) ++
        l.reverse.dropWhile (fun c => decide (c = '0'))).reverse := (List.reverse_append _ _).symm
  _ = l.reverse.reverse := by rw [hsplit]
  _ = l := List.reverse_reverse l

theorem dropTrailingZeros_all_zero {l : List Char} (h : ∀ c ∈ l, c = '0') :
    dropTrailingZeros l = [] := by
  have : l.reverse.dropWhile (fun c => decide (c = '0')) = [] := by
    rw [List.dropWhile_eq_nil_iff]
    intro c hc
    simp [h c (List.mem_reverse.mp hc)]
  simp [dropTrailingZeros, this]

/-! ## Lemmas: splitting at the dot -/

theorem splitOnDot_no_dot {l : List Char} (h : ∀ c ∈ l, c ≠ '.') :
    splitOnDot l = (l, none) := by
  induction l with
  | nil => rfl
  | cons c cs ih =>
    have hc : c ≠ '.' := h c (by simp)
    simp only [splitOnDot, if_neg hc]
    rw [ih (fun x hx => h x (by simp [hx]))]

theorem splitOnDot_append_dot {l₁ : List Char} (l₂ : List Char) (h : ∀ c ∈ l₁, c ≠ '.') :
    splitOnDot (l₁ ++ '.' :: l₂) = (l₁, some l₂) := by
  induction l₁ with
  | nil => simp [splitOnDot]
  | cons c cs ih =>
    have hc : c ≠ '.' := h c (by simp)
    simp only [List.cons_append, splitOnDot, if_neg hc, List.append_eq]
    rw [ih (fun x hx => h x (by simp [hx]))]

/-! ## Lemmas: registry indices -/

theorem add_tokens_by_symbol_of_not_mem :
    ∀ (l : List TokenInfo) (reg : TokenRegistry) (s : String),
      (∀ i ∈ l, i.symbol ≠ s) → (reg.add_tokens l).by_symbol s = reg.by_symbol s := by
  intro l
  induction l with
  | nil => intro reg s _; rfl
  | cons x xs ih =>
    intro reg s h
    show ((reg.add_token x).add_tokens xs).by_symbol s = reg.by_symbol s
    rw [ih (reg.add_token x) s (fun i hi => h i (by simp [hi]))]
    simp only [TokenRegistry.add_token]
    rw [if_neg (fun hs => h x (by simp) hs.symm)]

theorem add_tokens_by_address_of_not_mem :
    ∀ (l : List TokenInfo) (reg : TokenRegistry) (a : Address),
      (∀ i ∈ l, i.address ≠ a) → (reg.add_tokens l).by_address a = reg.by_address a := by
  intro l
  induction l with
  | nil => intro reg a _; rfl
  | cons x xs ih =>
    intro reg a h
    show ((reg.add_token x).add_tokens xs).by_address a = reg.by_address a
    rw [ih (reg.add_token x) a (fun i hi => h i (by simp [hi]))]
    simp only [TokenRegistry.add_token]
    rw [if_neg (fun ha => h x (by simp) ha.symm)]

theorem add_tokens_by_symbol_of_mem :
    ∀ (l : List TokenInfo) (reg : TokenRegistry) (i : TokenInfo),
      i ∈ l → l.Pairwise (fun a b => a.symbol ≠ b.symbol) →
      (reg.add_tokens l).by_symbol i.symbol = some i := by
  intro l
  induction l with
  | nil => intro reg i hi; exact absurd hi (by simp)
  | cons x xs ih =>
    intro reg i hi hp
    rw [List.pairwise_cons] at hp
    show ((reg.add_token x).add_tokens xs).by_symbol i.symbol = some i
    rcases List.mem_cons.mp hi with hix | hix
    · subst hix
      rw [add_tokens_by_symbol_of_not_mem xs (reg.add_token i) i.symbol
        (fun j hj => (hp.1 j hj).symm)]
      simp [TokenRegistry.add_token]
    · exact ih (reg.add_token x) i hix hp.2

theorem add_tokens_by_address_of_mem :
    ∀ (l : List TokenInfo) (reg : TokenRegistry) (i : TokenInfo),
      i ∈ l → l.Pairwise (fun a b => a.address ≠ b.address) →
      (reg.add_tokens l).by_address i.address = some i := by
  intro l
  induction l with
  | nil => intro reg i hi; exact absurd hi (by simp)
  | cons x xs ih =>
    intro reg i hi hp
    rw [List.pairwise_cons] at hp
    show ((reg.add_token x).add_tokens xs).by_address i.address = some i
    rcases List.mem_cons.mp hi with hix | hix
    · subst hix
      rw [add_tokens_by_address_of_not_mem xs (reg.add_token i) i.address
        (fun j hj => (hp.1 j hj).symm)]
      simp [TokenRegistry.add_token]
    · exact ih (reg.add_token x) i hix hp.2

theorem add_tokens_by_symbol_mem_of_some :
    ∀ (l : List TokenInfo) (reg : TokenRegistry) (s : String) (i : TokenInfo),
      (reg.add_tokens l).by_symbol s = some i → i ∈ l ∨ reg.by_symbol s = some i := by
  intro l
  induction l with
  | nil => intro reg s i h; exact Or.inr h
  | cons x xs ih =>
    intro reg s i h
    rcases ih (reg.add_token x) s i h with hmem | hbase
    · exact Or.inl (by simp [hmem])
    · simp only [TokenRegistry.add_token] at hbase
      by_cases hs : s = x.symbol
      · rw [if_pos hs] at hbase
        cases hbase
        exact Or.inl (by simp)
      · rw [if_neg hs] at hbase
        exact Or.inr hbase

theorem add_tokens_by_address_mem_of_some :
    ∀ (l : List TokenInfo) (reg : TokenRegistry) (a : Address) (i : TokenInfo),
      (reg.add_tokens l).by_address a = some i → i ∈ l ∨ reg.by_address a = some i := by
  intro l
  induction l with
  | nil => intro reg a i h; exact Or.inr h
  | cons x xs ih =>
    intro reg a i h
    rcases ih (reg.add_token x) a i h with hmem | hbase
    · exact Or.inl (by simp [hmem])
    · simp only [TokenRegistry.add_token] at hbase
      by_cases ha : a = x.address
      · rw [if_pos ha] at hbase
        cases hbase
        exact Or.inl (by simp)
      · rw [if_neg ha] at hbase
        exact Or.inr hbase

/-! ## Lemmas: string discrimination and Chainlink reads -/

theorem string_head_ne {a b : String} {c d : Char} (hc : a.data.head? = some c)
    (hd : b.data.head? = some d) (hne : c ≠ d) : a ≠ b := by
  intro h
  subst h
  rw [hc] at hd
  exact hne (Option.some.inj hd)

theorem fetch_chainlink_price_pos {env : PriceEnv} {feed : Address} {q : ℚ}
    (h : fetch_chainlink_price env feed = .ok q) : 0 < q := by
  unfold fetch_chainlink_price at h
  split at h
  · simp at h
  · split at h
    · simp at h
    · split at h
      · simp at h
      · split at h
        · simp at h
        · rename_i hpos
          cases h
          rename_i answer hbig
          push_neg at hpos
          exact div_pos (by exact_mod_cast hpos) (by positivity)

theorem fetch_chainlink_price_error_ne_zero_msg {env : PriceEnv} {feed : Address} {e : AppError}
    (h : fetch_chainlink_price env feed = .error e) :
    e ≠ AppError.Price "received zero ETH/USD price from Chainlink" := by
  unfold fetch_chainlink_price at h
  split at h
  · rename_i err heq
    cases h
    intro hcon
    rw [AppError.Price.injEq] at hcon
    exact string_head_ne (a := "failed to read feed decimals: " ++ err)
      (b := "received zero ETH/USD price from Chainlink")
      (c := 'f') (d := 'r') rfl rfl (by decide) hcon
  · split at h
    · rename_i err heq
      cases h
      intro hcon
      rw [AppError.Price.injEq] at hcon
      exact string_head_ne (a := "failed to read latest round: " ++ err)
        (b := "received zero ETH/USD price from Chainlink")
        (c := 'f') (d := 'r') rfl rfl (by decide) hcon
    · split at h
      · cases h
        decide
      · split at h
        · cases h
          decide
        · simp at h

/-! ## Lemmas: the formatter against the spec formula -/

theorem format_eq_spec_aux (raw d : Nat) (h : d ≤ 77) :
    format_with_decimals raw d = some (spec_format raw d) := by
  by_cases hd : d = 0
  · subst hd
    rfl
  · have hpow := ten_pow_eq_of_le h
    have hpow_ne : ¬((10 : Nat) ^ d = 0) := by positivity
    simp only [format_with_decimals, spec_format, if_neg hd, hpow, if_neg hpow_ne]
    by_cases hfrac : raw % 10 ^ d = 0
    · rw [if_pos hfrac]
      have hzeros : ∀ c ∈ padLeftZeros (natToDigits (raw % 10 ^ d)) d, c = '0' := by
        rw [hfrac]
        intro c hc
        simp only [padLeftZeros, List.mem_append] at hc
        rcases hc with hc | hc
        · exact List.eq_of_mem_replicate hc
        · have hz : natToDigits 0 = ['0'] := rfl
          rw [hz] at hc
          simpa using hc
      rw [dropTrailingZeros_all_zero hzeros]
      simp
    · rw [if_neg hfrac]
      split
      · rfl
      · rfl

theorem format_zero_aux (d : Nat) (hd : 0 < d) (h : d ≤ 77) :
    format_with_decimals 0 d = some "0" := by
  rw [format_eq_spec_aux 0 d h]
  congr 1
  unfold spec_format
  rw [if_neg (by omega : ¬(d = 0))]
  have h0m : (0 : Nat) % 10 ^ d = 0 := Nat.zero_mod _
  have hzeros : ∀ c ∈ padLeftZeros (natToDigits ((0 : Nat) % 10 ^ d)) d, c = '0' := by
    rw [h0m]
    intro c hc
    simp only [padLeftZeros, List.mem_append] at hc
    rcases hc with hc | hc
    · exact List.eq_of_mem_replicate hc
    · have hz : natToDigits 0 = ['0'] := rfl
      rw [hz] at hc
      simpa using hc
  show (if dropTrailingZeros (padLeftZeros (natToDigits (0 % 10 ^ d)) d) = []
      then natToString (0 / 10 ^ d)
      else String.mk (natToDigits (0 / 10 ^ d) ++ '.' ::
        dropTrailingZeros (padLeftZeros (natToDigits (0 % 10 ^ d)) d))) = "0"
  rw [dropTrailingZeros_all_zero hzeros]
  have hif : (if ([] : List Char) = [] then natToString (0 / 10 ^ d)
      else String.mk (natToDigits (0 / 10 ^ d) ++ '.' :: [])) = natToString (0 / 10 ^ d) :=
    if_pos rfl
  rw [hif, Nat.zero_div]
  rfl

theorem parse_padLeft (F d : Nat) :
    parseDigitsFrom 0 (padLeftZeros (natToDigits F) d) = some F := by
  unfold padLeftZeros
  rw [parseDigitsFrom_append]
  rw [parseDigitsFrom_replicate_zero]
  simp only [Nat.zero_mul]
  exact parse_natToDigits F

theorem parse_formatted_no_dot (n d : Nat) :
    parse_formatted (natToString n) d = some (n * 10 ^ d) := by
  unfold parse_formatted
  have hdata : (natToString n).data = natToDigits n := rfl
  rw [hdata, splitOnDot_no_dot
    (fun c hc => isDigit_ne_dot (natToDigits_all_digits n c hc))]
  simp only [parse_natToDigits]

theorem format_round_trip_aux (raw d : Nat) (h : d ≤ 77) :
    (format_with_decimals raw d).bind (fun s => parse_formatted s d) = some raw := by
  by_cases hd : d = 0
  · subst hd
    show parse_formatted (natToString raw) 0 = some raw
    rw [parse_formatted_no_dot]
    simp
  · have hdpos : 0 < d := Nat.pos_of_ne_zero hd
    have hpow := ten_pow_eq_of_le h
    have hpow_ne : ¬((10 : Nat) ^ d = 0) := by positivity
    have hpowpos : 0 < (10 : Nat) ^ d := Nat.pos_of_ne_zero hpow_ne
    have hFlt : raw % 10 ^ d < 10 ^ d := Nat.mod_lt _ hpowpos
    have hsplit_raw : 10 ^ d * (raw / 10 ^ d) + raw % 10 ^ d = raw := Nat.div_add_mod raw (10 ^ d)
    simp only [format_with_decimals, if_neg hd, hpow, if_neg hpow_ne]
    by_cases hfrac : raw % 10 ^ d = 0
    · rw [if_pos hfrac]
      show parse_formatted (natToString (raw / 10 ^ d)) d = some raw
      rw [parse_formatted_no_dot]
      congr 1
      rw [Nat.mul_comm]
      omega
    · rw [if_neg hfrac]
      by_cases htrim : dropTrailingZeros (padLeftZeros (natToDigits (raw % 10 ^ d)) d) = []
      · exfalso
        have hres := dropTrailingZeros_restore (padLeftZeros (natToDigits (raw % 10 ^ d)) d)
        rw [htrim, List.nil_append, List.length_nil, Nat.sub_zero] at hres
        have hparse := parse_padLeft (raw % 10 ^ d) d
        rw [← hres, parseDigitsFrom_replicate_zero, Nat.zero_mul] at hparse
        exact hfrac (Option.some.inj hparse).symm
      · rw [if_neg htrim]
        show parse_formatted
          (String.mk (natToDigits (raw / 10 ^ d) ++ '.' ::
            dropTrailingZeros (padLeftZeros (natToDigits (raw % 10 ^ d)) d))) d = some raw
        unfold parse_formatted
        rw [show (String.mk (natToDigits (raw / 10 ^ d) ++ '.' ::
            dropTrailingZeros (padLeftZeros (natToDigits (raw % 10 ^ d)) d))).data =
          natToDigits (raw / 10 ^ d) ++ '.' ::
            dropTrailingZeros (padLeftZeros (natToDigits (raw % 10 ^ d)) d) from rfl]
        rw [splitOnDot_append_dot _
          (fun c hc => isDigit_ne_dot (natToDigits_all_digits (raw / 10 ^ d) c hc))]
        have hlenP : (padLeftZeros (natToDigits (raw % 10 ^ d)) d).length = d :=
          padLeftZeros_length (natToDigits_length_le hFlt hdpos)
        have hres := dropTrailingZeros_restore (padLeftZeros (natToDigits (raw % 10 ^ d)) d)
        rw [hlenP] at hres
        simp only [parse_natToDigits, hres, parse_padLeft]
        congr 1
        have hcomm : raw / 10 ^ d * 10 ^ d = 10 ^ d * (raw / 10 ^ d) := Nat.mul_comm _ _
        omega

/-! ## Claim theorems -/

/-- C2 (amended): for every raw amount and decimal count `d ≤ 77` (the
exponents whose power of ten is representable at the 256-bit width; larger
exponents panic, see the counterexample), `format_with_decimals` computes the
spec's formula: at `d = 0` the plain integer string, otherwise integer part
`raw / 10^d` with the remainder zero-left-padded to `d` digits and trailing
zeros stripped, fraction omitted when empty; in particular
`format(r, 0) = toString r`, `format(0, d) = "0"` for `0 < d ≤ 77`,
`format(10^18, 18) = "1"` and `format(123456·10^15, 18) = "123.456"`. -/
theorem format_with_decimals_spec (raw d : Nat) :
    (d ≤ 77 → format_with_decimals raw d = some (spec_format raw d))
    ∧ (0 < d → d ≤ 77 → format_with_decimals 0 d = some "0")
    ∧ format_with_decimals raw 0 = some (natToString raw)
    ∧ format_with_decimals (10 ^ 18) 18 = some "1"
    ∧ format_with_decimals (123456 * 10 ^ 15) 18 = some "123.456" := by
  refine ⟨fun h => format_eq_spec_aux raw d h, fun hd h => format_zero_aux d hd h, rfl, ?_, ?_⟩
  · decide
  · decide

/-- C2 witness: the general statement evaluated at `raw = 1234500`, `d = 5`
(result "12.345"). -/
theorem format_with_decimals_spec_witness :
    format_with_decimals 1234500 5 = some (spec_format 1234500 5)
    ∧ format_with_decimals 0 5 = some "0"
    ∧ format_with_decimals 1234500 0 = some (natToString 1234500)
    ∧ format_with_decimals (10 ^ 18) 18 = some "1"
    ∧ format_with_decimals (123456 * 10 ^ 15) 18 = some "123.456" :=
  ⟨(format_with_decimals_spec 1234500 5).1 (by decide),
   (format_with_decimals_spec 1234500 5).2.1 (by decide) (by decide),
   (format_with_decimals_spec 1234500 5).2.2.1,
   (format_with_decimals_spec 1234500 5).2.2.2.1,
   (format_with_decimals_spec 1234500 5).2.2.2.2⟩

/-- C2 counterexample: at `d = 78` the claim demands `format(0, 78) = "0"`,
but `10^78` overflows `U256` and the uint crate's `pow` panics (modelled as
`none`), so no string is returned at all. -/
theorem format_with_decimals_overflow_breaks_claim :
    format_with_decimals 0 78 ≠ some "0" := by decide

/-- C3 (amended): whenever `bps ≤ 10000` and the 256-bit product
`amountOut * (10000 - bps)` does not overflow, the minimum acceptable output
is exactly `floor(amountOut * (10000 - bps) / 10000)` (truncating integer
arithmetic); in particular `apply_slippage 1000000 100 = 990000`.  For larger
products the panicking multiplication aborts instead, see the
counterexample. -/
theorem apply_slippage_floor (amount bps : Nat) :
    (bps ≤ 10000 → amount * (10000 - bps) < U256_LIMIT →
      apply_slippage amount bps = some (amount * (10000 - bps) / 10000))
    ∧ apply_slippage 1000000 100 = some 990000 := by
  constructor
  · intro _ hov
    unfold apply_slippage
    rw [u256CheckedMul_of_lt hov]
  · decide

/-- C3 witness: the slippage bound evaluated at the claim's own example. -/
theorem apply_slippage_floor_witness :
    apply_slippage 1000000 100 = some (1000000 * (10000 - 100) / 10000)
    ∧ apply_slippage 1000000 100 = some 990000 :=
  ⟨(apply_slippage_floor 1000000 100).1 (by decide) (by decide),
   (apply_slippage_floor 1000000 100).2⟩

/-- C3 counterexample: at `amountOut = 2^255`, `bps = 100` the 256-bit
multiplication `2^255 * 9900` overflows and panics (modelled as `none`), so
the engine does not return the claimed floor value. -/
theorem apply_slippage_overflow_panic : apply_slippage (2 ^ 255) 100 = none := by decide

/-- C4 (amended): for every non-negative integer `r` and decimal count
`d ≤ 77`, formatting round-trips: parsing the output back as
`integerPart * 10^d + fractionPart` (fraction zero-padded back to `d`
digits) reproduces `r` exactly; no rounding is performed.  For `d ≥ 78` the
formatter panics instead of returning a string, see the counterexample. -/
theorem format_with_decimals_round_trip (r d : Nat) (h : d ≤ 77) :
    (format_with_decimals r d).bind (fun s => parse_formatted s d) = some r :=
  format_round_trip_aux r d h

/-- C4 witness: the round trip evaluated at `r = 987654321`, `d = 6`. -/
theorem format_with_decimals_round_trip_witness :
    (format_with_decimals 987654321 6).bind (fun s => parse_formatted s 6) =
      some 987654321 :=
  format_with_decimals_round_trip 987654321 6 (by decide)

/-- C4 counterexample: at `r = 5`, `d = 78` no string is produced (the
power-of-ten computation panics), so the round trip cannot reproduce `r`. -/
theorem format_round_trip_overflow_breaks_claim :
    (format_with_decimals 5 78).bind (fun s => parse_formatted s 78) ≠ some 5 := by decide

/-- C7: the spec's degenerate fallback (return the raw integer string when
`10^decimals` is zero at the arithmetic width) is never reached: the uint
crate's `U256::pow` panics on overflow, so `format_with_decimals` aborts at
`decimals = 78` instead of returning "1"; the `power.is_zero()` branch is
dead code. -/
theorem format_with_decimals_pow_panic : format_with_decimals 1 78 = none := by decide

/-- C5: swap simulation validates before any external read: an over-100%
slippage tolerance fails with the Swap error kind, an unparsable input
amount with InvalidInput, and a zero amount with a distinct Swap error —
each with an empty external-read trace (no metadata fetch, quote, gas
estimate or simulation has been issued). -/
theorem simulate_swap_validation_before_reads (env : SwapEnv)
    (signer from_token to_token : Address) (params : SwapTokensParams) :
    (params.slippage_bps > 10000 →
      simulate_swap env signer from_token to_token params =
        (some (.error (.Swap "slippage cannot exceed 100% (10_000 bps)")), []))
    ∧ (params.slippage_bps ≤ 10000 → u256_from_dec_str params.amount_in_wei = none →
      simulate_swap env signer from_token to_token params =
        (some (.error (.InvalidInput ("invalid numeric value: " ++ params.amount_in_wei))), []))
    ∧ (params.slippage_bps ≤ 10000 → u256_from_dec_str params.amount_in_wei = some 0 →
      simulate_swap env signer from_token to_token params =
        (some (.error (.Swap "amount_in_wei must be greater than zero")), [])) := by
  refine ⟨fun hs => ?_, fun hs hp => ?_, fun hs hp => ?_⟩
  · unfold simulate_swap
    rw [if_pos hs]
  · unfold simulate_swap
    rw [if_neg (by omega : ¬params.slippage_bps > 10000)]
    simp only [parse_amount, hp]
  · unfold simulate_swap
    rw [if_neg (by omega : ¬params.slippage_bps > 10000)]
    simp only [parse_amount, hp]
    simp only [if_true]

/-- C5 witness: the three rejections evaluated on concrete parameter sets
(slippage 10001, amount "12x", amount "0"). -/
theorem simulate_swap_validation_before_reads_witness :
    simulate_swap swapEnvStub "0x00" tknAddr wethAddr paramsBadSlippage =
      (some (.error (.Swap "slippage cannot exceed 100% (10_000 bps)")), [])
    ∧ simulate_swap swapEnvStub "0x00" tknAddr wethAddr paramsBadAmount =
      (some (.error (.InvalidInput ("invalid numeric value: " ++ "12x"))), [])
    ∧ simulate_swap swapEnvStub "0x00" tknAddr wethAddr paramsZeroAmount =
      (some (.error (.Swap "amount_in_wei must be greater than zero")), []) :=
  ⟨(simulate_swap_validation_before_reads swapEnvStub "0x00" tknAddr wethAddr
      paramsBadSlippage).1 (by decide),
   (simulate_swap_validation_before_reads swapEnvStub "0x00" tknAddr wethAddr
      paramsBadAmount).2.1 (by decide) (by decide),
   (simulate_swap_validation_before_reads swapEnvStub "0x00" tknAddr wethAddr
      paramsZeroAmount).2.2 (by decide) (by decide)⟩

/-- C6: a base address absent from the registry snapshot fails with the
unsupported-token error (realised by the `InvalidInput` constructor, JSON-RPC
code -32602) whose message is "unsupported token: " followed by the address,
so the message names the offending address. -/
theorem resolve_token_price_unknown_token (env : PriceEnv) (reg : TokenRegistry)
    (base : Address) (quote : QuoteCurrency) (h : reg.info_by_address base = none) :
    resolve_token_price env reg base quote =
      some (.error (.InvalidInput ("unsupported token: " ++ base)))
    ∧ ("unsupported token: " ++ base).data = ("unsupported token: ").data ++ base.data := by
  constructor
  · simp only [resolve_token_price, h]
  · rfl

/-- C6 witness: lookup of the unregistered address "0x99". -/
theorem resolve_token_price_unknown_token_witness :
    resolve_token_price priceEnvA regNoWeth "0x99" .USD =
      some (.error (.InvalidInput ("unsupported token: " ++ "0x99")))
    ∧ ("unsupported token: " ++ "0x99").data =
        ("unsupported token: ").data ++ ("0x99" : String).data :=
  resolve_token_price_unknown_token priceEnvA regNoWeth "0x99" .USD (by decide)

/-- C8: `ensure_token` is a no-op on an already-registered address; on an
absent address a decimals-read failure fails the whole call with an Rpc
error, a symbol-read failure falls back to the literal symbol "ERC20", and a
successful (non-empty-symbol) fetch inserts a `TokenInfo::new` record — in
both success cases with an empty oracle-feed map and the protocol-default
fee tier 3000. -/
theorem ensure_token_spec (env : Erc20Env) (reg : TokenRegistry) (a : Address) :
    (∀ i, reg.by_address a = some i → reg.ensure_token env a = .ok reg)
    ∧ (∀ e, reg.by_address a = none → env.decimalsOf a = .error e →
        reg.ensure_token env a = .error (.Rpc ("failed to fetch ERC-20 decimals: " ++ e)))
    ∧ (∀ d e, reg.by_address a = none → env.decimalsOf a = .ok d → env.symbolOf a = .error e →
        reg.ensure_token env a = .ok (reg.add_token (TokenInfo.new "ERC20" a d))
        ∧ (TokenInfo.new "ERC20" a d).chainlink_feeds = []
        ∧ (TokenInfo.new "ERC20" a d).default_fee = 3000)
    ∧ (∀ d s, reg.by_address a = none → env.decimalsOf a = .ok d → env.symbolOf a = .ok s →
        s ≠ "" →
        reg.ensure_token env a = .ok (reg.add_token (TokenInfo.new s a d))
        ∧ (TokenInfo.new s a d).chainlink_feeds = []
        ∧ (TokenInfo.new s a d).default_fee = 3000) := by
  refine ⟨fun i h => ?_, fun e h hdec => ?_, fun d e h hdec hsym => ⟨?_, rfl, rfl⟩,
    fun d s h hdec hsym hs => ⟨?_, rfl, rfl⟩⟩
  · simp [TokenRegistry.ensure_token, h]
  · simp only [TokenRegistry.ensure_token, h, Option.isSome_none, Bool.false_eq_true,
      if_false, fetch_metadata, hdec]
  · simp only [TokenRegistry.ensure_token, h, Option.isSome_none, Bool.false_eq_true,
      if_false, fetch_metadata, hdec, hsym]
    rw [if_neg (by decide : ¬("ERC20" = ""))]
  · simp only [TokenRegistry.ensure_token, h, Option.isSome_none, Bool.false_eq_true,
      if_false, fetch_metadata, hdec, hsym]
    rw [if_neg hs]

/-- C8 witness: the four behaviours evaluated on concrete registries and
read environments. -/
theorem ensure_token_spec_witness :
    regNoWeth.ensure_token erc20EnvOk tknAddr = .ok regNoWeth
    ∧ regNoWeth.ensure_token erc20EnvNoDec "0x99" =
        .error (.Rpc ("failed to fetch ERC-20 decimals: " ++ "connection refused"))
    ∧ (regNoWeth.ensure_token erc20EnvNoSym "0x99" =
          .ok (regNoWeth.add_token (TokenInfo.new "ERC20" "0x99" 6))
        ∧ (TokenInfo.new "ERC20" "0x99" 6).chainlink_feeds = []
        ∧ (TokenInfo.new "ERC20" "0x99" 6).default_fee = 3000)
    ∧ (regNoWeth.ensure_token erc20EnvOk "0x99" =
          .ok (regNoWeth.add_token (TokenInfo.new "usdt" "0x99" 6))
        ∧ (TokenInfo.new "usdt" "0x99" 6).chainlink_feeds = []
        ∧ (TokenInfo.new "usdt" "0x99" 6).default_fee = 3000) :=
  ⟨(ensure_token_spec erc20EnvOk regNoWeth tknAddr).1 tknInfoUsd (by decide),
   (ensure_token_spec erc20EnvNoDec regNoWeth "0x99").2.1 "connection refused" (by decide) rfl,
   (ensure_token_spec erc20EnvNoSym regNoWeth "0x99").2.2.1 6 "execution reverted"
     (by decide) rfl rfl,
   (ensure_token_spec erc20EnvOk regNoWeth "0x99").2.2.2 6 "usdt" (by decide) rfl rfl
     (by decide)⟩

/-- C10: every value `fetch_chainlink_price` returns successfully is
strictly positive (a non-positive feed answer yields an error instead), so
in the via-USD pivot the zero-denominator branch producing the
"received zero ETH/USD price from Chainlink" error is unreachable: whatever
the pivot returns, it is never that error, and the division is performed
with a nonzero divisor. -/
theorem fetch_chainlink_price_positive (env : PriceEnv) (feed : Address) (q : ℚ)
    (reg : TokenRegistry) (base_info : TokenInfo) (r : Except AppError PriceOut) :
    (fetch_chainlink_price env feed = .ok q → 0 < q)
    ∧ (pivot_via_usd env reg base_info = some r →
        r ≠ .error (.Price "received zero ETH/USD price from Chainlink")) := by
  constructor
  · exact fetch_chainlink_price_pos
  · intro h
    unfold pivot_via_usd at h
    split at h
    · simp at h
    · split at h
      · simp at h
      · split at h
        · simp at h
        · cases h
          split
          · rename_i e hf
            intro hcon
            injection hcon with h2
            exact fetch_chainlink_price_error_ne_zero_msg hf h2
          · split
            · rename_i e hf
              intro hcon
              injection hcon with h2
              exact fetch_chainlink_price_error_ne_zero_msg hf h2
            · rename_i eth_usd hf2
              rw [if_neg (ne_of_gt (fetch_chainlink_price_pos hf2))]
              simp

/-- C10 witness: the sample feed read returns 3 (positive), and the pivot on
the sample registry returns the ok result, not the zero-divisor error. -/
theorem fetch_chainlink_price_positive_witness :
    (0 : ℚ) < 3
    ∧ (Except.ok (PriceOut.mk "TKN" "ETH" ((3 : ℚ) / 2) "chainlink (via USD)") :
        Except AppError PriceOut) ≠
      .error (.Price "received zero ETH/USD price from Chainlink") := by
  have h1 : fetch_chainlink_price priceEnvA tknUsdFeed = .ok 3 := by
    norm_num [fetch_chainlink_price, priceEnvA, tknUsdFeed, wethUsdFeed]
  have h2 : fetch_chainlink_price priceEnvA wethUsdFeed = .ok 2 := by
    have hs : ¬(("0xf2" : String) = "0xf1") := by decide
    norm_num [fetch_chainlink_price, priceEnvA, tknUsdFeed, wethUsdFeed, hs]
  have hpivot : pivot_via_usd priceEnvA regViaUsd tknInfoUsd =
      some (.ok (PriceOut.mk "TKN" "ETH" ((3 : ℚ) / 2) "chainlink (via USD)")) := by
    have hf1 : feedsGet tknInfoUsd.chainlink_feeds QuoteCurrency.USD = some tknUsdFeed := rfl
    have hw : regViaUsd.info_by_symbol "WETH" = some wethInfoUsd := by decide
    have hf2 : feedsGet wethInfoUsd.chainlink_feeds QuoteCurrency.USD = some wethUsdFeed := rfl
    simp only [pivot_via_usd, hf1, hw, hf2, h1, h2]
    rw [if_neg (by norm_num : ¬((2 : ℚ) = 0))]
    rfl
  exact ⟨(fetch_chainlink_price_positive priceEnvA tknUsdFeed 3 regViaUsd tknInfoUsd
      (.error (.Internal "unused"))).1 h1,
    (fetch_chainlink_price_positive priceEnvA tknUsdFeed 3 regViaUsd tknInfoUsd
      (.ok (PriceOut.mk "TKN" "ETH" ((3 : ℚ) / 2) "chainlink (via USD)"))).2 hpivot⟩

/-- C1 (amended): with the base token registered, (i) a direct Chainlink
feed for the requested quote that reads successfully yields source
"chainlink"; (ii) for an ETH quote with no direct ETH feed, a base USD feed
pivots through the WETH USD feed with price `base_usd / eth_usd` and source
"chainlink (via USD)"; (iii) when no WETH record is registered at all, the
ETH-quote call fails with the Price error "missing quote token
configuration".  (When a WETH record exists but lacks a USD feed the code
instead falls through to the Uniswap fallback, which can succeed — see the
counterexample.) -/
theorem resolve_token_price_resolution_order (env : PriceEnv) (reg : TokenRegistry)
    (base : Address) (base_info ei : TokenInfo) (quote : QuoteCurrency)
    (feed fUsd fEthUsd : Address) (p q : ℚ)
    (hbase : reg.info_by_address base = some base_info) :
    (feedsGet base_info.chainlink_feeds quote = some feed →
      fetch_chainlink_price env feed = .ok p →
      resolve_token_price env reg base quote =
        some (.ok (PriceOut.mk base_info.symbol quote.to_string p "chainlink")))
    ∧ (feedsGet base_info.chainlink_feeds .ETH = none →
      feedsGet base_info.chainlink_feeds .USD = some fUsd →
      reg.info_by_symbol "WETH" = some ei →
      feedsGet ei.chainlink_feeds .USD = some fEthUsd →
      fetch_chainlink_price env fUsd = .ok p →
      fetch_chainlink_price env fEthUsd = .ok q →
      resolve_token_price env reg base .ETH =
        some (.ok (PriceOut.mk base_info.symbol "ETH" (p / q) "chainlink (via USD)")))
    ∧ (feedsGet base_info.chainlink_feeds .ETH = none →
      feedsGet base_info.chainlink_feeds .USD = some fUsd →
      reg.info_by_symbol "WETH" = none →
      resolve_token_price env reg base .ETH =
        some (.error (.Price "missing quote token configuration"))) := by
  refine ⟨fun hfeed hfetch => ?_, fun hE hU hW hWU hf1 hf2 => ?_, fun hE hU hW => ?_⟩
  · simp only [resolve_token_price, hbase, hfeed, hfetch]
  · simp only [resolve_token_price, hbase, hE, pivot_via_usd, hU, hW, hWU, hf1, hf2]
    rw [if_neg (ne_of_gt (fetch_chainlink_price_pos hf2))]
    simp [QuoteCurrency.to_string]
  · simp only [resolve_token_price, hbase, hE, pivot_via_usd, hU, hW, uniswap_fallback,
      TokenRegistry.quote_token]
    simp

/-- C1 witness: the three behaviours evaluated on the concrete sample
registries and feed environment (direct USD price 3; DAI-style via-USD pivot
price 3/2; missing WETH record error). -/
theorem resolve_token_price_resolution_order_witness :
    resolve_token_price priceEnvA regNoWeth tknAddr .USD =
      some (.ok (PriceOut.mk "TKN" "USD" 3 "chainlink"))
    ∧ resolve_token_price priceEnvA regViaUsd tknAddr .ETH =
      some (.ok (PriceOut.mk "TKN" "ETH" ((3 : ℚ) / 2) "chainlink (via USD)"))
    ∧ resolve_token_price priceEnvA regNoWeth tknAddr .ETH =
      some (.error (.Price "missing quote token configuration")) := by
  have h1 : fetch_chainlink_price priceEnvA tknUsdFeed = .ok 3 := by
    norm_num [fetch_chainlink_price, priceEnvA, tknUsdFeed, wethUsdFeed]
  have h2 : fetch_chainlink_price priceEnvA wethUsdFeed = .ok 2 := by
    have hs : ¬(("0xf2" : String) = "0xf1") := by decide
    norm_num [fetch_chainlink_price, priceEnvA, tknUsdFeed, wethUsdFeed, hs]
  refine ⟨?_, ?_, ?_⟩
  · exact (resolve_token_price_resolution_order priceEnvA regNoWeth tknAddr tknInfoUsd
      tknInfoUsd .USD tknUsdFeed tknUsdFeed tknUsdFeed 3 0 (by decide)).1 rfl h1
  · exact (resolve_token_price_resolution_order priceEnvA regViaUsd tknAddr tknInfoUsd
      wethInfoUsd .ETH tknUsdFeed tknUsdFeed wethUsdFeed 3 2 (by decide)).2.1
      rfl rfl (by decide) rfl h1 h2
  · exact (resolve_token_price_resolution_order priceEnvA regNoWeth tknAddr tknInfoUsd
      tknInfoUsd .ETH tknUsdFeed tknUsdFeed tknUsdFeed 3 0 (by decide)).2.2
      rfl rfl (by decide)

/-- C1 counterexample: with the base token carrying only a USD feed and a
WETH record present but carrying no USD feed, an ETH-quote request does not
fail: it falls through to the Uniswap fallback and succeeds with source
"uniswap_v3 (fee 3000)", contradicting the claim that an absent WETH USD
feed makes the call fail with PriceUnavailable. -/
theorem resolve_token_price_succeeds_without_weth_usd_feed :
    resolve_token_price priceEnvA regWethNoFeed tknAddr .ETH =
      some (.ok (PriceOut.mk "TKN" "ETH" ((1 : ℚ) / 2) "uniswap_v3 (fee 3000)")) := by
  have hbase : regWethNoFeed.info_by_address tknAddr = some tknInfoUsd := by decide
  have hE : feedsGet tknInfoUsd.chainlink_feeds .ETH = none := rfl
  have hU : feedsGet tknInfoUsd.chainlink_feeds .USD = some tknUsdFeed := rfl
  have hW : regWethNoFeed.info_by_symbol "WETH" = some wethInfoBare := by decide
  have hWU : feedsGet wethInfoBare.chainlink_feeds .USD = none := rfl
  have h10 : ten_pow 18 = some (10 ^ 18) := ten_pow_eq_of_le (by norm_num)
  have hfmt : format_with_decimals (5 * 10 ^ 17) 18 = some "0.5" := by decide
  have hparse : decimal_from_str_exact "0.5" = some ((1 : ℚ) / 2) := by
    have hraw : decimal_from_str_exact "0.5" =
        some (((0 : ℕ) : ℚ) + ((5 : ℕ) : ℚ) / (10 : ℚ) ^ (1 : ℕ)) := rfl
    rw [hraw]
    norm_num
  have hquote : priceEnvA.uniswapQuote
      (UniswapQuoteParams.mk tknAddr wethAddr (10 ^ 18) 3000 0) =
        .ok (5 * 10 ^ 17, 0, 0, 0) := by decide
  have hne : ¬(5 * 10 ^ 17 = 0) := by positivity
  have huni : fetch_uniswap_price priceEnvA tknInfoUsd wethInfoBare = some (.ok ((1 : ℚ) / 2)) := by
    have hd : tknInfoUsd.decimals = 18 := rfl
    have ha : tknInfoUsd.address = tknAddr := rfl
    have hf : tknInfoUsd.default_fee = 3000 := rfl
    have hwa : wethInfoBare.address = wethAddr := rfl
    have hwd : wethInfoBare.decimals = 18 := rfl
    simp only [fetch_uniswap_price, hd, ha, hf, hwa, hwd, h10, hquote, if_neg hne, hfmt, hparse]
  simp only [resolve_token_price, hbase, hE, pivot_via_usd, hU, hW, hWU,
    uniswap_fallback, TokenRegistry.quote_token, huni]
  simp [QuoteCurrency.to_string]
  exact ⟨by decide, by decide⟩

/-- C9 (amended): starting from the empty registry, for every insertion
sequence whose records have pairwise-distinct symbols and pairwise-distinct
addresses (and uppercase symbols, as `TokenInfo::new` produces), every
inserted record is reachable by its symbol via `info_by_symbol` and by its
address via `info_by_address`, and the two indices agree: any record held by
one index is held by the other at its own key.  (With a duplicated symbol or
address the later insert overwrites one index entry but not the other — see
the counterexample.) -/
theorem registry_indices_consistent (l : List TokenInfo) (i info : TokenInfo)
    (s : String) (a : Address)
    (hsym : l.Pairwise (fun x y => x.symbol ≠ y.symbol))
    (haddr : l.Pairwise (fun x y => x.address ≠ y.address))
    (hupper : ∀ j ∈ l, str_to_uppercase j.symbol = j.symbol) :
    (i ∈ l →
      (TokenRegistry.new.add_tokens l).info_by_symbol i.symbol = some i
      ∧ (TokenRegistry.new.add_tokens l).info_by_address i.address = some i)
    ∧ ((TokenRegistry.new.add_tokens l).by_symbol s = some info →
      (TokenRegistry.new.add_tokens l).by_address info.address = some info)
    ∧ ((TokenRegistry.new.add_tokens l).by_address a = some info →
      (TokenRegistry.new.add_tokens l).by_symbol info.symbol = some info) := by
  refine ⟨fun hi => ⟨?_, ?_⟩, fun hs => ?_, fun ha => ?_⟩
  · unfold TokenRegistry.info_by_symbol
    rw [hupper i hi]
    exact add_tokens_by_symbol_of_mem l TokenRegistry.new i hi hsym
  · exact add_tokens_by_address_of_mem l TokenRegistry.new i hi haddr
  · rcases add_tokens_by_symbol_mem_of_some l TokenRegistry.new s info hs with hmem | hbase
    · exact add_tokens_by_address_of_mem l TokenRegistry.new info hmem haddr
    · exact absurd hbase (by simp [TokenRegistry.new])
  · rcases add_tokens_by_address_mem_of_some l TokenRegistry.new a info ha with hmem | hbase
    · exact add_tokens_by_symbol_of_mem l TokenRegistry.new info hmem hsym
    · exact absurd hbase (by simp [TokenRegistry.new])

/-- C9 witness: the consistency statements evaluated on the two-record
sample registry. -/
theorem registry_indices_consistent_witness :
    ((TokenRegistry.new.add_tokens [tknInfoUsd, wethInfoUsd]).info_by_symbol "TKN" =
        some tknInfoUsd
      ∧ (TokenRegistry.new.add_tokens [tknInfoUsd, wethInfoUsd]).info_by_address tknAddr =
        some tknInfoUsd)
    ∧ (TokenRegistry.new.add_tokens [tknInfoUsd, wethInfoUsd]).by_address tknInfoUsd.address =
        some tknInfoUsd
    ∧ (TokenRegistry.new.add_tokens [tknInfoUsd, wethInfoUsd]).by_symbol wethInfoUsd.symbol =
        some wethInfoUsd :=
  ⟨(registry_indices_consistent [tknInfoUsd, wethInfoUsd] tknInfoUsd tknInfoUsd "TKN" tknAddr
      (by decide) (by decide) (by decide)).1 (by decide),
   (registry_indices_consistent [tknInfoUsd, wethInfoUsd] tknInfoUsd tknInfoUsd "TKN" tknAddr
      (by decide) (by decide) (by decide)).2.1 (by decide),
   (registry_indices_consistent [tknInfoUsd, wethInfoUsd] tknInfoUsd wethInfoUsd "TKN" wethAddr
      (by decide) (by decide) (by decide)).2.2 (by decide)⟩

/-- C9 counterexample: inserting two records that share the symbol "FOO"
(distinct addresses) leaves the first record reachable by address but no
longer reachable by its own symbol — `info_by_symbol` returns the second
record — so the two indices no longer describe the same record set. -/
theorem registry_duplicate_symbol_divergence :
    (TokenRegistry.new.add_tokens [fooA, fooB]).info_by_symbol fooA.symbol = some fooB
    ∧ (TokenRegistry.new.add_tokens [fooA, fooB]).by_address fooA.address = some fooA
    ∧ fooA ≠ fooB := by decide
